import Mathlib

/-
Verification of spec claims for the flax repository snapshot.
Shallow embedding of:
  src/flax/training/prefetch_iterator.py  (namespace Prefetch)
  src/flax/linen/module.py                (namespace Linen)
-/

namespace Spec2Proof

namespace Prefetch

/-- Exceptions raised by the wrapped source iterator (and stored in
`self._error` by `PrefetchIterator._prefetch_loop`).  In Python both a plain
exhaustion (`StopIteration`) and a data error are caught by the
`except Exception` clause at prefetch_iterator.py:85, so both are represented
here. -/
inductive Exc (ε : Type) where
  | stopIteration : Exc ε
  | err : ε → Exc ε
deriving DecidableEq, Repr

/-- Outcome of one `PrefetchIterator.__next__` call: either an item popped
from the buffer, or a raised exception (the recorded error, or a fresh
`StopIteration`). -/
inductive Out (α ε : Type) where
  | item : α → Out α ε
  | raised : Exc ε → Out α ε
deriving DecidableEq, Repr

/-- State of a `PrefetchIterator` together with its wrapped source.
`src` is the list of items the wrapped `data_iter` will still yield and
`srcEnd` the exception `next(data_iter)` raises after them; `buffer`,
`active`, `error` are the fields `self._buffer`, `self._active`,
`self._error`; `bufferSize` is `self.buffer_size`; `prodDone` records that
the `_prefetch_loop` thread has returned. -/
structure PState (α ε : Type) where
  src : List α
  srcEnd : Exc ε
  bufferSize : Nat
  buffer : List α
  active : Bool
  error : Option (Exc ε)
  prodDone : Bool
deriving DecidableEq, Repr

/-- State right after `PrefetchIterator.__init__` (lines 35-49): empty buffer,
`_active = True`, `_error = None`, prefetch thread started and still running. -/
def initState (l : List α) (e : Exc ε) (n : Nat) : PState α ε :=
  ⟨l, e, n, [], true, none, false⟩

/-- Embeds `PrefetchIterator.__next__` (lines 54-64).  The call blocks
(`wait_for(lambda: self._buffer or not self._active)`) until the buffer is
non-empty or the iterator is inactive; a blocked call is `none`.  If the
buffer is non-empty the oldest item is popped (`self._buffer.pop(0)`);
otherwise the recorded error is raised if present (note: it is NOT cleared),
else a fresh `StopIteration` is raised. -/
def nextCall (s : PState α ε) : Option (Out α ε × PState α ε) :=
  match s.buffer with
  | x :: rest => some (Out.item x, { s with buffer := rest })
  | [] =>
    if s.active then none
    else
      match s.error with
      | some e => some (Out.raised e, s)
      | none => some (Out.raised Exc.stopIteration, s)

/-- Embeds `PrefetchIterator.close` (lines 66-69): sets `_active = False` and
wakes waiters (notification is pure synchronization and has no state besides
`active`). -/
def close (s : PState α ε) : PState α ε := { s with active := false }

/-- One scheduled action of the `_prefetch_loop` thread (lines 71-89).
The loop appends each fetched item to the end of the buffer, then waits for
`len(self._buffer) < self.buffer_size or not self._active`; a step is
therefore enabled only when that predicate holds.  On release: if the
iterator was closed the thread returns; otherwise the next source item is
appended, and when the source is exhausted (or raises) the exception is
recorded in `_error`, `_active` is cleared and the thread returns.  A blocked
or finished thread leaves the state unchanged. -/
def prodStep (s : PState α ε) : PState α ε :=
  if s.prodDone then s
  else if s.buffer.length < s.bufferSize || !s.active then
    if !s.active then { s with prodDone := true }
    else
      match s.src with
      | x :: rest => { s with src := rest, buffer := s.buffer ++ [x] }
      | [] => { s with error := some s.srcEnd, active := false, prodDone := true }
  else s

/-- One interleaving step: `true` schedules the producer thread, `false`
schedules one consumer `__next__` call (a no-op when that call would block). -/
def step (s : PState α ε) (choice : Bool) : PState α ε × List (Out α ε) :=
  if choice then (prodStep s, [])
  else
    match nextCall s with
    | some (o, s2) => (s2, [o])
    | none => (s, [])

/-- Run a whole schedule of interleaved producer/consumer steps, collecting
the outcomes the consumer observes. -/
def run (s : PState α ε) : List Bool → PState α ε × List (Out α ε)
  | [] => (s, [])
  | c :: cs =>
    let p1 := step s c
    let p2 := run p1.1 cs
    (p2.1, p1.2 ++ p2.2)

/-- Items among the consumer-observed outcomes, in order. -/
def itemsOf : List (Out α ε) → List α
  | [] => []
  | Out.item x :: rest => x :: itemsOf rest
  | Out.raised _ :: rest => itemsOf rest

/-- Exceptions among the consumer-observed outcomes, in order. -/
def raisesOf : List (Out α ε) → List (Exc ε)
  | [] => []
  | Out.item _ :: rest => raisesOf rest
  | Out.raised e :: rest => e :: raisesOf rest

/-- A canonical schedule alternating producer and consumer so that, with
buffer depth 1, every source item is produced and consumed, and the terminal
exception is recorded and then observed once. -/
def canonSched : List α → List Bool
  | [] => [true, false]
  | _ :: rest => true :: false :: canonSched rest

/-- Iterate `n` consumer `__next__` calls (stopping early if a call would
block), collecting the outcomes. -/
def consume : Nat → PState α ε → List (Out α ε) × PState α ε
  | 0, s => ([], s)
  | n + 1, s =>
    match nextCall s with
    | none => ([], s)
    | some (o, s2) =>
      let p := consume n s2
      (o :: p.1, p.2)

/-- Invariant of every interleaved run (with no `close` call) that starts from
`initState l e n`: the consumer has observed a prefix of `l` in order, the
unobserved items sit in the buffer in front of the unproduced ones, every
raised exception is the terminal exception `e` of the source, exceptions are
observed only once the buffer and the source are drained, and `_error` is
written exactly once (when the producer terminates). -/
def GoodRun (l : List α) (e : Exc ε) (s : PState α ε) (outs : List (Out α ε)) : Prop :=
  s.srcEnd = e ∧
  itemsOf outs ++ s.buffer ++ s.src = l ∧
  outs = (itemsOf outs).map Out.item ++ (raisesOf outs).map Out.raised ∧
  (∀ r ∈ raisesOf outs, r = e) ∧
  (raisesOf outs ≠ [] → s.buffer = [] ∧ s.src = [] ∧ s.active = false) ∧
  (s.active = true → s.error = none ∧ s.prodDone = false ∧ raisesOf outs = []) ∧
  (s.active = false → s.error = some e ∧ s.src = [] ∧ s.prodDone = true)

end Prefetch

namespace Linen

/-- Python exceptions raised along the module.py paths that the claims touch.
`nameError s` stands for a Python `NameError` on the undefined global `s`. -/
inductive PyErr where
  | valueError : String → PyErr
  | runtimeError : String → PyErr
  | nameError : String → PyErr
  | attributeError : String → PyErr
deriving DecidableEq, Repr

/-- Message of the error raised by `Module._verify_single_or_no_compact`
(module.py 386-390).  It is one fixed string; notice that it does not contain
the names of the offending methods. -/
def compactErrMsg : String :=
  "Only one method per class can be @compact. You can remove @compact and " ++
  "define submodules and variables in setup(), or use two separate modules."

/-- Embeds `Module._verify_single_or_no_compact` (module.py 380-390).
The methods of the class are given as (name, has-compact-attribute) pairs, as
collected by `inspect.getmembers`; the check counts the compact-marked ones
and raises `RuntimeError` when there is more than one. -/
def verify_single_or_no_compact (methods : List (String × Bool)) : Except PyErr Unit :=
  if (methods.filter (fun m => m.2)).length > 1 then
    Except.error (PyErr.runtimeError compactErrMsg)
  else
    Except.ok ()

/-- Modelled from the spec: the Scope/variable store of `flax.core` is not in
src/; per the spec it tracks a reservations set and a path-keyed store of
parameter values with create-or-fetch semantics. -/
structure Scope where
  reservations : List String
  params : List (String × Nat)
deriving DecidableEq, Repr

/-- Modelled from the spec: `Scope.param` (flax.core, not in src/) performs
create-or-fetch: the first call with a name runs the initializer and stores
the result, later calls return the stored value untouched. -/
def Scope.paramOp (sc : Scope) (name : String) (init_fn : Unit → Nat) : Nat × Scope :=
  match sc.params.lookup name with
  | some v => (v, sc)
  | none =>
    let v := init_fn ()
    (v, { sc with reservations := sc.reservations ++ [name],
                  params := sc.params ++ [(name, v)] })

/-- Modelled from the spec: `Scope.rewound` (flax.core, not in src/) resets
scope-internal bookkeeping (the reservations) between repeated invocations of
the same compact method, while the stored variables are unaffected. -/
def Scope.rewound (sc : Scope) : Scope := { sc with reservations := [] }

/-- The per-instance evaluation state of a bound module: the
`_ModuleInternalState` fields (module.py 271-287) plus the `scope`, the
`children` map (child name, collection tag) and the set of attribute names
`_all_names_on_object` sees on the instance. -/
structure MState where
  scope : Option Scope
  in_setup : Bool
  in_compact_method : Bool
  last_varname : Option String
  autoname_cursor : List (String × Nat)
  attrNames : List String
  children : List (String × String)
deriving DecidableEq, Repr

/-- Embeds `_ModuleInternalState.reset` (module.py 283-287). -/
def MState.resetInternal (m : MState) : MState :=
  { m with in_setup := false, in_compact_method := false,
           last_varname := none, autoname_cursor := [] }

/-- Embeds the property `Module._initialization_allowed` (module.py 529-531). -/
def initialization_allowed (m : MState) : Bool :=
  m.in_setup || m.in_compact_method

/-- Embeds `Module._name_taken` (module.py 525-527): a name is taken when it
is among the scope reservations or among `_all_names_on_object(self)`. -/
def name_taken (m : MState) (sc : Scope) (n : String) : Bool :=
  sc.reservations.contains n || m.attrNames.contains n

/-- Message of the `ValueError` raised by `Module.variable` when called
outside `setup` or a compact method (module.py 571-574). -/
def variableInitMsg : String :=
  "Variables must be initialized in `setup()` or in a method wrapped in `@compact`"

/-- Message of the `ValueError` raised by `Module.param` when called outside
`setup` or a compact method (module.py 599-602). -/
def paramInitMsg : String :=
  "Parameters must be initialized in `setup()` or in a method wrapped in `@compact`"

/-- Message of the `ValueError` raised on a name collision (module.py
575-577, 603-605); the source interpolates the name and the class name. -/
def nameInUseMsg (name : String) : String :=
  "Name " ++ name ++ " already in use."

/-- Embeds `Module.variable` (module.py 549-582).  After the two guard checks
and the `self._state.last_varname = name` assignment, line 580 of the source
reads the name `kind` (`v = self.scope.variable(kind, name, init_fn,
*init_args)`), but the parameter of the method is named `col` and no global
`kind` exists in module.py, so Python raises `NameError` there; the scope is
never consulted and `self.children` is never updated.  When the scope is
`None`, reading `self.scope.reservations` inside `_name_taken` raises an
`AttributeError` first. -/
def Module.variableDecl (m : MState) (col name : String) (init_fn : Unit → Nat) :
    Except PyErr Nat × MState :=
  if !(initialization_allowed m) then
    (Except.error (PyErr.valueError variableInitMsg), m)
  else
    match m.scope with
    | none => (Except.error (PyErr.attributeError "reservations"), m)
    | some sc =>
      if name_taken m sc name then
        (Except.error (PyErr.valueError (nameInUseMsg name)), m)
      else
        let m1 := { m with last_varname := some name }
        (Except.error (PyErr.nameError "kind"), m1)

/-- Embeds `Module.param` (module.py 584-610): guard check, name-collision
check, `last_varname` recording, delegation to `self.scope.param` and
registration of the name in `self.children` under the collection "params". -/
def Module.param (m : MState) (name : String) (init_fn : Unit → Nat) :
    Except PyErr Nat × MState :=
  if !(initialization_allowed m) then
    (Except.error (PyErr.valueError paramInitMsg), m)
  else
    match m.scope with
    | none => (Except.error (PyErr.attributeError "reservations"), m)
    | some sc =>
      if name_taken m sc name then
        (Except.error (PyErr.valueError (nameInUseMsg name)), m)
      else
        let m1 := { m with last_varname := some name }
        let p := Scope.paramOp sc name init_fn
        let m2 := { m1 with scope := some p.2, children := m1.children ++ [(name, "params")] }
        (Except.ok p.1, m2)

/-- Message of the `ValueError` raised by `wrap_method` on a module with no
bound scope (module.py 223-224; the source text reads, with an apostrophe,
Cant call methods on orphaned modules). -/
def orphanMsg : String := "Cant call methods on orphaned modules"

/-- The thread-local interpreter state seen by a wrapped method call: the
receiving module and the `_context.module_stack` of the `_DynamicContext`
(module.py 93-104; the stack bottom is the `None` sentinel). -/
structure TraceState where
  self_module : MState
  module_stack : List (Option MState)
deriving Repr

/-- Embeds `wrap_method.wrapped_module_method` (module.py 210-240).
`is_compact_method` stands for `hasattr(fun, "compact")` and
`is_setup_method` for `fun.__name__ == "setup"`.  The wrapper first rejects
modules with `scope is None`, then sets the lifecycle flag, pushes `self` on
the module stack and runs the body; the `finally` block pops the stack,
rewinds the scope after a compact method, and resets the internal state after
a compact or setup method, whether the body returned or raised. -/
def wrapped_module_method (is_compact_method is_setup_method : Bool)
    (body : TraceState → Except PyErr Nat × TraceState)
    (st : TraceState) : Except PyErr Nat × TraceState :=
  if st.self_module.scope = none then
    (Except.error (PyErr.valueError orphanMsg), st)
  else
    let m1 :=
      if is_compact_method then { st.self_module with in_compact_method := true }
      else if is_setup_method then { st.self_module with in_setup := true }
      else st.self_module
    let st1 : TraceState := ⟨m1, st.module_stack ++ [some m1]⟩
    let p := body st1
    let st2 := p.2
    let st3 : TraceState := ⟨st2.self_module, st2.module_stack.dropLast⟩
    let m2 :=
      if is_compact_method then
        { st3.self_module with scope := st3.self_module.scope.map Scope.rewound }
      else st3.self_module
    let m3 :=
      if is_compact_method || is_setup_method then m2.resetInternal else m2
    (p.1, ⟨m3, st3.module_stack⟩)

/-- Python values that can be assigned to a module attribute in the paths the
claims touch: numbers (configuration values), `None`, the fresh
`_ModuleInternalState()` object and the fresh `dict()` assigned by
`__post_init__`. -/
inductive Val where
  | nat : Nat → Val
  | pyNone : Val
  | internalState : Val
  | emptyDict : Val
deriving DecidableEq, Repr

/-- Update one key of an attribute dictionary. -/
def setAssoc : List (String × Val) → String → Val → List (String × Val)
  | [], k, v => [(k, v)]
  | (k0, v0) :: rest, k, v =>
    if k0 = k then (k, v) :: rest else (k0, v0) :: setAssoc rest k v

/-- The attribute view of a module instance used by `Module.__setattr__`:
its `__dataclass_fields__` keys and its `__dict__`. -/
structure PyModule where
  dataclass_fields : List String
  dict : List (String × Val)
deriving DecidableEq, Repr

/-- Embeds `object.__setattr__` (module.py 454): store the value in
`self.__dict__`. -/
def object_setattr (m : PyModule) (name : String) (v : Val) : PyModule :=
  { m with dict := setAssoc m.dict name v }

/-- Embeds attribute read on the instance. -/
def getattrOf (m : PyModule) (name : String) : Option Val :=
  m.dict.lookup name

/-- Embeds `Module.__setattr__` (module.py 406-454).  Assignments to
`parent` and to any name in `self.__dataclass_fields__` fall through the
first two branches unchecked and reach the unconditional
`object.__setattr__` on line 454.  Any other name enters the `else` branch,
whose first expression (line 428) calls `get_suffix_value_pairs(val)`; the
helper defined in module.py is named `_get_suffix_value_pairs` (line 128) and
no `get_suffix_value_pairs` exists, so Python raises `NameError` before any
of the submodule/variable checks in that branch can run. -/
def Module.setattr (m : PyModule) (name : String) (v : Val) : Except PyErr PyModule :=
  if name = "parent" then Except.ok (object_setattr m name v)
  else if m.dataclass_fields.contains name then Except.ok (object_setattr m name v)
  else Except.error (PyErr.nameError "get_suffix_value_pairs")

/-- Embeds the first statements of `Module.__post_init__` (module.py
456-465): after `_check_omnistaging`, the method assigns `self._state =
_ModuleInternalState()` and `self.children = dict()`, both of which go
through the overloaded `Module.__setattr__`.  The rest of `__post_init__`
(parent resolution, the autonaming block at lines 487-492, registration on
the parent and the `setup()` call) is reached only if these succeed. -/
def Module.post_init_prologue (m : PyModule) : Except PyErr PyModule := do
  let m1 ← Module.setattr m "_state" Val.internalState
  let m2 ← Module.setattr m1 "children" Val.emptyDict
  Except.ok m2

/-- Embeds the cursor read `self.parent._state.autoname_cursor.get(prefix, 0)`
of the autonaming block (module.py 490). -/
def cursorGet (c : List (String × Nat)) (k : String) : Nat :=
  (c.lookup k).getD 0

/-- Embeds the cursor write `self.parent._state.autoname_cursor[prefix] =
cursor + 1` (module.py 492). -/
def cursorSet : List (String × Nat) → String → Nat → List (String × Nat)
  | [], k, v => [(k, v)]
  | (k0, v0) :: rest, k, v =>
    if k0 = k then (k, v) :: rest else (k0, v0) :: cursorSet rest k v

/-- Embeds the autonaming block of `Module.__post_init__` (module.py
487-492), the code the construction path would run if it were reached: the
class name indexes the parent cursor, the current counter becomes the numeric
suffix, and the counter is incremented. -/
def autoname_step (cursor : List (String × Nat)) (clsName : String) :
    String × List (String × Nat) :=
  let n := cursorGet cursor clsName
  (clsName ++ "_" ++ toString n, cursorSet cursor clsName (n + 1))

/-- Names assigned by a fixed-order sequence of unnamed submodule
constructions (given by their class names) against one parent cursor. -/
def autonameSeq : List String → List (String × Nat) → List String
  | [], _ => []
  | c :: cs, cur =>
    let p := autoname_step cur c
    p.1 :: autonameSeq cs p.2

/-- Message of the `ValueError` raised by the wrapped `__hash__` on a bound
module (module.py 246-247; the source text reads, with an apostrophe, Cant
call __hash__ on modules that hold variables). -/
def hashErrMsg : String := "Cant call __hash__ on modules that hold variables."

/-- Embeds the `__hash__` generated by `dataclasses.dataclass(cls,
unsafe_hash=True)` (module.py 374): a pure function of the tuple of dataclass
field values (the user configuration fields plus `parent` and `name`).  The
numeric values of the CPython hash are not modelled; what matters is that the
result is computed from the field values alone. -/
def dataclass_hash (fields : List (String × Val)) : Nat :=
  fields.foldl
    (fun h kv =>
      h * 31 + kv.1.length +
        (match kv.2 with
         | Val.nat n => n + 2
         | Val.pyNone => 0
         | Val.internalState => 1
         | Val.emptyDict => 1))
    7

/-- Embeds `_wrap_hash.wrapped` (module.py 243-249): hashing a module whose
`scope` is not `None` raises `ValueError`; otherwise the dataclass-generated
hash of the field values is returned. -/
def wrapped_hash (scope : Option Scope) (fields : List (String × Val)) :
    Except PyErr Nat :=
  if scope = none then Except.ok (dataclass_hash fields)
  else Except.error (PyErr.valueError hashErrMsg)

end Linen

/-
Helper lemmas.
-/

open Prefetch Linen

theorem itemsOf_append {α ε : Type} (a b : List (Out α ε)) :
    itemsOf (a ++ b) = itemsOf a ++ itemsOf b := by
  induction a with
  | nil => rfl
  | cons o rest ih => cases o <;> simp [itemsOf, ih]

theorem raisesOf_append {α ε : Type} (a b : List (Out α ε)) :
    raisesOf (a ++ b) = raisesOf a ++ raisesOf b := by
  induction a with
  | nil => rfl
  | cons o rest ih => cases o <;> simp [raisesOf, ih]

theorem shape_append_item {α ε : Type} (outs : List (Out α ε)) (x : α)
    (h3 : outs = (itemsOf outs).map Out.item ++ (raisesOf outs).map Out.raised)
    (hr : raisesOf outs = []) :
    outs ++ [Out.item x]
      = (itemsOf (outs ++ [Out.item x])).map Out.item
        ++ (raisesOf (outs ++ [Out.item x])).map Out.raised := by
  rw [itemsOf_append, raisesOf_append, hr]
  conv_lhs => rw [h3, hr]
  simp [itemsOf, raisesOf]

theorem shape_append_raised {α ε : Type} (outs : List (Out α ε)) (e : Exc ε)
    (h3 : outs = (itemsOf outs).map Out.item ++ (raisesOf outs).map Out.raised) :
    outs ++ [Out.raised e]
      = (itemsOf (outs ++ [Out.raised e])).map Out.item
        ++ (raisesOf (outs ++ [Out.raised e])).map Out.raised := by
  rw [itemsOf_append, raisesOf_append]
  conv_lhs => rw [h3]
  simp [itemsOf, raisesOf]

theorem goodRun_init {α ε : Type} (l : List α) (e : Exc ε) (n : Nat) :
    GoodRun l e (initState l e n) [] := by
  refine ⟨rfl, by simp [initState, itemsOf], by simp [itemsOf, raisesOf], ?_, ?_, ?_, ?_⟩
  · intro r hr; simp [raisesOf] at hr
  · intro hne; simp [raisesOf] at hne
  · intro _; exact ⟨rfl, rfl, rfl⟩
  · intro hfalse; simp [initState] at hfalse

theorem goodRun_step {α ε : Type} (l : List α) (e : Exc ε) (s : PState α ε)
    (outs : List (Out α ε)) (c : Bool) (h : GoodRun l e s outs) :
    GoodRun l e (step s c).1 (outs ++ (step s c).2) := by
  obtain ⟨src, srcEnd, bs, buf, act, err, pd⟩ := s
  obtain ⟨h1, h2, h3, h4, h5, h6, h7⟩ := h
  replace h1 : srcEnd = e := h1
  cases c with
  | true =>
    have hstep : step (⟨src, srcEnd, bs, buf, act, err, pd⟩ : PState α ε) true
        = (prodStep ⟨src, srcEnd, bs, buf, act, err, pd⟩, []) := rfl
    rw [hstep]
    simp only [List.append_nil]
    cases pd with
    | true =>
      have hps : prodStep (⟨src, srcEnd, bs, buf, act, err, true⟩ : PState α ε)
          = ⟨src, srcEnd, bs, buf, act, err, true⟩ := by simp [prodStep]
      rw [hps]
      exact ⟨h1, h2, h3, h4, h5, h6, h7⟩
    | false =>
      cases act with
      | false =>
        exact absurd (h7 rfl).2.2 (by simp)
      | true =>
        obtain ⟨he, _, hr⟩ := h6 rfl
        by_cases hlt : buf.length < bs
        · cases src with
          | nil =>
            have hps : prodStep (⟨[], srcEnd, bs, buf, true, err, false⟩ : PState α ε)
                = ⟨[], srcEnd, bs, buf, false, some srcEnd, true⟩ := by
              simp [prodStep, hlt]
            rw [hps]
            refine ⟨h1, h2, h3, h4, ?_, ?_, ?_⟩
            · intro hne; rw [hr] at hne; exact absurd rfl hne
            · intro hcontra; simp at hcontra
            · intro _; exact ⟨by rw [h1], rfl, rfl⟩
          | cons x rest =>
            have hps : prodStep (⟨x :: rest, srcEnd, bs, buf, true, err, false⟩ : PState α ε)
                = ⟨rest, srcEnd, bs, buf ++ [x], true, err, false⟩ := by
              simp [prodStep, hlt]
            rw [hps]
            refine ⟨h1, ?_, h3, h4, ?_, ?_, ?_⟩
            · simp only [← h2]; simp
            · intro hne; rw [hr] at hne; exact absurd rfl hne
            · intro _; exact ⟨he, rfl, hr⟩
            · intro hcontra; simp at hcontra
        · have hps : prodStep (⟨src, srcEnd, bs, buf, true, err, false⟩ : PState α ε)
              = ⟨src, srcEnd, bs, buf, true, err, false⟩ := by
            simp [prodStep, hlt]
          rw [hps]
          exact ⟨h1, h2, h3, h4, h5, h6, h7⟩
  | false =>
    cases buf with
    | cons x rest =>
      have hr : raisesOf outs = [] := by
        by_contra hne
        have := (h5 hne).1
        simp at this
      have hstep : step (⟨src, srcEnd, bs, x :: rest, act, err, pd⟩ : PState α ε) false
          = (⟨src, srcEnd, bs, rest, act, err, pd⟩, [Out.item x]) := rfl
      rw [hstep]
      refine ⟨h1, ?_, ?_, ?_, ?_, ?_, ?_⟩
      · rw [itemsOf_append]
        simp only [itemsOf]
        simpa using h2
      · exact shape_append_item outs x h3 hr
      · intro r hrr
        rw [raisesOf_append] at hrr
        simp only [raisesOf] at hrr
        exact h4 r (by simpa using hrr)
      · intro hne
        rw [raisesOf_append] at hne
        simp only [raisesOf, List.append_nil] at hne
        rw [hr] at hne
        exact absurd rfl hne
      · intro ha
        obtain ⟨he, hp, _⟩ := h6 ha
        refine ⟨he, hp, ?_⟩
        rw [raisesOf_append]; simp [raisesOf, hr]
      · intro ha
        exact h7 ha
    | nil =>
      cases act with
      | true =>
        have hstep : step (⟨src, srcEnd, bs, [], true, err, pd⟩ : PState α ε) false
            = (⟨src, srcEnd, bs, [], true, err, pd⟩, []) := rfl
        rw [hstep]
        simpa using ⟨h1, h2, h3, h4, h5, h6, h7⟩
      | false =>
        obtain ⟨he, hs, hp⟩ := h7 rfl
        replace he : err = some e := he
        replace hs : src = [] := hs
        subst hs
        subst he
        have hstep : step (⟨[], srcEnd, bs, [], false, some e, pd⟩ : PState α ε) false
            = (⟨[], srcEnd, bs, [], false, some e, pd⟩, [Out.raised e]) := rfl
        rw [hstep]
        refine ⟨h1, ?_, ?_, ?_, ?_, ?_, ?_⟩
        · rw [itemsOf_append]; simpa [itemsOf] using h2
        · exact shape_append_raised outs e h3
        · intro r hrr
          rw [raisesOf_append] at hrr
          simp only [raisesOf] at hrr
          rcases List.mem_append.mp hrr with hin | hin
          · exact h4 r hin
          · simp at hin; subst hin; rfl
        · intro _; exact ⟨rfl, rfl, rfl⟩
        · intro hcontra; simp at hcontra
        · intro _; exact ⟨rfl, rfl, hp⟩

theorem goodRun_run {α ε : Type} (l : List α) (e : Exc ε) (ch : List Bool)
    (s : PState α ε) (outs : List (Out α ε)) (h : GoodRun l e s outs) :
    GoodRun l e (run s ch).1 (outs ++ (run s ch).2) := by
  induction ch generalizing s outs with
  | nil => simpa [run] using h
  | cons c cs ih =>
    simp only [run]
    have h2 := ih (step s c).1 (outs ++ (step s c).2) (goodRun_step l e s outs c h)
    simpa [List.append_assoc] using h2

theorem run_cons {α ε : Type} (s : PState α ε) (c : Bool) (cs : List Bool) :
    run s (c :: cs)
      = ((run (step s c).1 cs).1, (step s c).2 ++ (run (step s c).1 cs).2) := rfl

theorem run_append {α ε : Type} (s : PState α ε) (a b : List Bool) :
    run s (a ++ b)
      = ((run (run s a).1 b).1, (run s a).2 ++ (run (run s a).1 b).2) := by
  induction a generalizing s with
  | nil => simp [run]
  | cons c cs ih =>
    simp only [List.cons_append, run_cons, ih, List.append_assoc]

theorem canon_run {α ε : Type} (e : Exc ε) (l : List α) :
    run (initState l e 1) (canonSched l)
      = (⟨[], e, 1, [], false, some e, true⟩, l.map Out.item ++ [Out.raised e]) := by
  induction l with
  | nil => rfl
  | cons x rest ih =>
    have hsched : canonSched (x :: rest) = true :: false :: canonSched rest := rfl
    have h1 : step (initState (x :: rest) e 1) true
        = (⟨rest, e, 1, [x], true, none, false⟩, []) := rfl
    have h2 : step (⟨rest, e, 1, [x], true, none, false⟩ : PState α ε) false
        = (initState rest e 1, [Out.item x]) := rfl
    rw [hsched, run_cons, h1]
    simp only []
    rw [run_cons, h2]
    simp only []
    rw [ih]
    simp

theorem consume_inactive {α ε : Type} :
    ∀ (b : List α) (s : PState α ε), s.active = false → s.error = none →
      s.buffer = b →
      (consume (b.length + 1) s).1
          = b.map Out.item ++ [Out.raised (Exc.stopIteration (ε := ε))] ∧
      (consume b.length s).1 = b.map Out.item := by
  intro b
  induction b with
  | nil =>
    intro s ha he hb
    obtain ⟨src, se, bs, buf, act, err, pd⟩ := s
    replace ha : act = false := ha
    replace he : err = none := he
    replace hb : buf = [] := hb
    subst ha; subst he; subst hb
    exact ⟨rfl, rfl⟩
  | cons x rest ih =>
    intro s ha he hb
    obtain ⟨src, se, bs, buf, act, err, pd⟩ := s
    replace ha : act = false := ha
    replace he : err = none := he
    replace hb : buf = x :: rest := hb
    subst ha; subst he; subst hb
    have h2 := ih ⟨src, se, bs, rest, false, none, pd⟩ rfl rfl rfl
    have hn : nextCall (⟨src, se, bs, x :: rest, false, none, pd⟩ : PState α ε)
        = some (Out.item x, ⟨src, se, bs, rest, false, none, pd⟩) := rfl
    constructor
    · show (consume (rest.length + 1 + 1) ⟨src, se, bs, x :: rest, false, none, pd⟩).1 = _
      rw [consume, hn]
      simp [h2.1]
    · show (consume (rest.length + 1) ⟨src, se, bs, x :: rest, false, none, pd⟩).1 = _
      rw [consume, hn]
      simp [h2.2]

theorem lookup_setAssoc : ∀ (d : List (String × Val)) (k : String) (v : Val),
    (setAssoc d k v).lookup k = some v := by
  intro d k v
  induction d with
  | nil => simp [setAssoc, List.lookup]
  | cons kv rest ih =>
    obtain ⟨k0, v0⟩ := kv
    by_cases hk : k0 = k
    · subst hk
      simp [setAssoc, List.lookup]
    · have hbeq : (k == k0) = false := beq_eq_false_iff_ne.mpr (Ne.symm hk)
      simp [setAssoc, hk, List.lookup, hbeq, ih]

theorem lookup_cursorSet_eq : ∀ (cur : List (String × Nat)) (k : String) (n : Nat),
    (cursorSet cur k n).lookup k = some n := by
  intro cur k n
  induction cur with
  | nil => simp [cursorSet, List.lookup]
  | cons kv rest ih =>
    obtain ⟨k0, v0⟩ := kv
    by_cases hk : k0 = k
    · subst hk
      simp [cursorSet, List.lookup]
    · have hbeq : (k == k0) = false := beq_eq_false_iff_ne.mpr (Ne.symm hk)
      simp [cursorSet, hk, List.lookup, hbeq, ih]

theorem lookup_cursorSet_ne : ∀ (cur : List (String × Nat)) (k k2 : String) (n : Nat),
    k ≠ k2 → (cursorSet cur k n).lookup k2 = cur.lookup k2 := by
  intro cur k k2 n hne
  induction cur with
  | nil =>
    have hbeq : (k2 == k) = false := beq_eq_false_iff_ne.mpr (Ne.symm hne)
    simp [cursorSet, List.lookup, hbeq]
  | cons kv rest ih =>
    obtain ⟨k0, v0⟩ := kv
    by_cases hk : k0 = k
    · subst hk
      have hbeq : (k2 == k0) = false := beq_eq_false_iff_ne.mpr (Ne.symm hne)
      simp [cursorSet, List.lookup, hbeq]
    · simp [cursorSet, hk, List.lookup, ih]

theorem cursorGet_cursorSet_eq (cur : List (String × Nat)) (k : String) (n : Nat) :
    cursorGet (cursorSet cur k n) k = n := by
  simp [cursorGet, lookup_cursorSet_eq]

theorem cursorGet_cursorSet_ne (cur : List (String × Nat)) (k k2 : String) (n : Nat)
    (h : k ≠ k2) : cursorGet (cursorSet cur k n) k2 = cursorGet cur k2 := by
  simp [cursorGet, lookup_cursorSet_ne cur k k2 n h]

theorem autonameSeq_per_class (c : String) :
    ∀ (seq : List String) (cur : List (String × Nat)),
      ((autonameSeq seq cur).zip seq).filterMap
          (fun p => if p.2 = c then some p.1 else none)
        = (List.range (seq.count c)).map
            (fun k => c ++ "_" ++ toString (cursorGet cur c + k)) := by
  intro seq
  induction seq with
  | nil => intro cur; simp [autonameSeq]
  | cons c0 cs ih =>
    intro cur
    simp only [autonameSeq, autoname_step, List.zip_cons_cons, List.filterMap_cons]
    by_cases hc : c0 = c
    · subst hc
      have h1 := ih (cursorSet cur c0 (cursorGet cur c0 + 1))
      rw [cursorGet_cursorSet_eq] at h1
      simp [h1, List.count_cons_self, List.range_succ_eq_map, List.map_map]
      intro k _
      have harr : cursorGet cur c0 + 1 + k = cursorGet cur c0 + (k + 1) := by omega
      rw [harr]
    · have hcount : (c0 :: cs).count c = cs.count c := by
        rw [List.count_cons]
        have hbeq : (c == c0) = false :=
          beq_eq_false_iff_ne.mpr (fun hcontra => hc hcontra.symm)
        simp [hbeq]
        exact hc
      have h1 := ih (cursorSet cur c0 (cursorGet cur c0 + 1))
      rw [cursorGet_cursorSet_ne cur c0 c _ hc] at h1
      rw [if_neg (by simpa using hc)]
      rw [h1, hcount]

/-
Claim theorems.
-/

/-- C1: the claim says `Module.variable` delegates to the scope's
create-or-fetch operation, registers the name in `children` tagged with its
collection, and returns the Variable.  The code cannot do any of this: after
the lifecycle and name checks pass and `last_varname` is recorded, line 580
evaluates the undefined name `kind` (the parameter is named `col`), so every
such call raises `NameError`, never consults the scope and never updates
`children`.  This theorem evaluates the embedded code on the claimed inputs
and exhibits that behaviour. -/
theorem variable_raises_nameerror_kind (m : MState) (sc : Scope) (col nm : String)
    (f : Unit → Nat) (h1 : m.scope = some sc)
    (h2 : initialization_allowed m = true) (h3 : name_taken m sc nm = false) :
    Module.variableDecl m col nm f
      = (Except.error (PyErr.nameError "kind"), { m with last_varname := some nm }) := by
  simp [Module.variableDecl, h1, h2, h3]

/-- Witness for C1 at a concrete bound module inside `setup`. -/
theorem variable_raises_nameerror_kind_witness :
    Module.variableDecl ⟨some ⟨[], []⟩, true, false, none, [], [], []⟩ "params" "kernel"
        (fun _ => 3)
      = (Except.error (PyErr.nameError "kind"),
         ⟨some ⟨[], []⟩, true, false, some "kernel", [], [], []⟩) :=
  variable_raises_nameerror_kind ⟨some ⟨[], []⟩, true, false, none, [], [], []⟩ ⟨[], []⟩
    "params" "kernel" (fun _ => 3) rfl rfl rfl

/-- C2: calling `variable` or `param` when the lifecycle state is neither
`in_setup` nor `in_compact_method` raises `ValueError` and leaves the module
state unchanged (the guard is the first statement of both methods). -/
theorem variable_param_outside_lifecycle_raises (m : MState) (col nm : String)
    (f g : Unit → Nat) (h1 : m.in_setup = false) (h2 : m.in_compact_method = false) :
    Module.variableDecl m col nm f
        = (Except.error (PyErr.valueError variableInitMsg), m)
    ∧ Module.param m nm g = (Except.error (PyErr.valueError paramInitMsg), m) := by
  have ha : initialization_allowed m = false := by
    simp [initialization_allowed, h1, h2]
  constructor <;> simp [Module.variableDecl, Module.param, ha]

/-- Witness for C2 at a concrete idle module. -/
theorem variable_param_outside_lifecycle_raises_witness :
    Module.variableDecl ⟨none, false, false, none, [], [], []⟩ "params" "w" (fun _ => 0)
        = (Except.error (PyErr.valueError variableInitMsg),
           ⟨none, false, false, none, [], [], []⟩)
    ∧ Module.param ⟨none, false, false, none, [], [], []⟩ "w" (fun _ => 0)
        = (Except.error (PyErr.valueError paramInitMsg),
           ⟨none, false, false, none, [], [], []⟩) :=
  variable_param_outside_lifecycle_raises _ "params" "w" _ _ rfl rfl

/-- C3: the claim says constructing n unnamed submodules of a class assigns
them ClassName_0 .. ClassName_(n-1) via the autonaming block of
`__post_init__`.  The cited autonaming code is intact, but on this code no
construction ever reaches it: the first statement of `__post_init__`,
`self._state = _ModuleInternalState()`, goes through `Module.__setattr__`,
whose non-field branch calls the undefined global `get_suffix_value_pairs`
(the helper is `_get_suffix_value_pairs`), so Python raises `NameError`
before any name is assigned.  This theorem evaluates the embedded
construction prologue at that failing point. -/
theorem post_init_crashes_before_autonaming (m : PyModule)
    (h : m.dataclass_fields.contains "_state" = false) :
    Module.post_init_prologue m
      = Except.error (PyErr.nameError "get_suffix_value_pairs") := by
  have h1 : Module.setattr m "_state" Val.internalState
      = Except.error (PyErr.nameError "get_suffix_value_pairs") := by
    have hmem : "_state" ∉ m.dataclass_fields := by simpa using h
    unfold Module.setattr
    rw [if_neg (by decide : ¬ ("_state" = "parent"))]
    simp [h, hmem]
  show (Module.setattr m "_state" Val.internalState >>= fun m1 =>
          Module.setattr m1 "children" Val.emptyDict >>= fun m2 => Except.ok m2)
      = Except.error (PyErr.nameError "get_suffix_value_pairs")
  rw [h1]
  rfl

/-- Witness for C3 at a concrete module whose dataclass fields are
`features`, `parent`, `name`. -/
theorem post_init_crashes_before_autonaming_witness :
    Module.post_init_prologue ⟨["features", "parent", "name"], [("features", Val.nat 3)]⟩
      = Except.error (PyErr.nameError "get_suffix_value_pairs") :=
  post_init_crashes_before_autonaming _ (by decide)

/-- C4: invoking any instrumented method on a module whose `scope` is `None`
raises `ValueError` before the user-defined body runs: the result is the
orphan error for every possible body, and the interpreter state is returned
unchanged (no flag is set, nothing is pushed on the module stack). -/
theorem orphaned_module_method_call_rejected (ic ise : Bool)
    (body : TraceState → Except PyErr Nat × TraceState) (st : TraceState)
    (h : st.self_module.scope = none) :
    wrapped_module_method ic ise body st
      = (Except.error (PyErr.valueError orphanMsg), st) := by
  simp [wrapped_module_method, h]

/-- Witness for C4 at a concrete orphaned module and a concrete body. -/
theorem orphaned_module_method_call_rejected_witness :
    wrapped_module_method true false (fun ts => (Except.ok 0, ts))
        ⟨⟨none, false, false, none, [], [], []⟩, [none]⟩
      = (Except.error (PyErr.valueError orphanMsg),
         ⟨⟨none, false, false, none, [], [], []⟩, [none]⟩) :=
  orphaned_module_method_call_rejected true false _ _ rfl

/-- C5 counterexample: the claim says no operation, attribute assignment
included, alters a declared configuration field after construction.  On a
concrete module with configuration field `features = 3`, the assignment
`self.features = 5` passes through `Module.__setattr__` (dataclass-field
branch, lines 423-424, then the unconditional `object.__setattr__` on line
454) and the observed value changes to 5. -/
theorem config_field_mutation_counterexample :
    Module.setattr ⟨["features", "parent", "name"],
        [("features", Val.nat 3), ("parent", Val.pyNone), ("name", Val.pyNone)]⟩
        "features" (Val.nat 5)
      = Except.ok ⟨["features", "parent", "name"],
          [("features", Val.nat 5), ("parent", Val.pyNone), ("name", Val.pyNone)]⟩
    ∧ getattrOf ⟨["features", "parent", "name"],
          [("features", Val.nat 5), ("parent", Val.pyNone), ("name", Val.pyNone)]⟩ "features"
        = some (Val.nat 5)
    ∧ Val.nat 5 ≠ Val.nat 3 := by
  refine ⟨rfl, rfl, by decide⟩

/-- C5 (amended): `Module.__setattr__` does not protect declared
configuration fields; assigning to any name in `__dataclass_fields__`
succeeds unchecked and overwrites the stored value, so configuration
immutability is a convention of use, not an enforced invariant. -/
theorem config_fields_pass_through_setattr (m : PyModule) (f : String) (v : Val)
    (h : m.dataclass_fields.contains f = true) :
    Module.setattr m f v = Except.ok (object_setattr m f v)
    ∧ getattrOf (object_setattr m f v) f = some v := by
  constructor
  · by_cases hp : f = "parent"
    · simp [Module.setattr, hp]
    · have hmem : f ∈ m.dataclass_fields := by simpa using h
      simp [Module.setattr, hp, h, hmem]
  · show (setAssoc m.dict f v).lookup f = some v
    exact lookup_setAssoc m.dict f v

/-- Witness for the amended C5 at a concrete module and field. -/
theorem config_fields_pass_through_setattr_witness :
    Module.setattr ⟨["features", "parent", "name"], [("features", Val.nat 3)]⟩
        "features" (Val.nat 9)
      = Except.ok (object_setattr ⟨["features", "parent", "name"],
          [("features", Val.nat 3)]⟩ "features" (Val.nat 9))
    ∧ getattrOf (object_setattr ⟨["features", "parent", "name"],
          [("features", Val.nat 3)]⟩ "features" (Val.nat 9)) "features"
        = some (Val.nat 9) :=
  config_fields_pass_through_setattr _ _ _ (by decide)

/-- C6 counterexample: the claim says that after the source error has been
surfaced once, any further `next()` call terminates the sequence (signals
exhaustion).  In the run below the source yields 1 and then raises; the
fourth `next()` call surfaces the error and the fifth raises the very same
error object again (the code never clears `self._error`), which is not the
exhaustion signal. -/
theorem prefetch_error_reraised_counterexample :
    (run (initState [1] (Exc.err 0) 1) [true, false, true, false, false]).2
        = [Out.item 1, Out.raised (Exc.err 0), Out.raised (Exc.err 0)]
    ∧ (Out.raised (Exc.err 0) : Out Nat Nat) ≠ Out.raised Exc.stopIteration := by
  exact ⟨rfl, by decide⟩

/-- C6 (amended): at most one error is ever recorded (the terminal exception
of the source); the consumer receives the yielded items in order; every
exception observed by the consumer is the identical recorded error and is
observed only once buffer and source are drained; but every further `next()`
call that finds the buffer empty re-raises the same error again instead of
signalling exhaustion, as the concrete run in the last conjunct shows. -/
theorem prefetch_error_redelivered_every_drain {α ε : Type} (l : List α) (e : ε)
    (ch : List Bool) (n : Nat) :
    ∀ fin outs, (fin, outs) = run (initState l (Exc.err e) n) ch →
      (fin.error = none ∨ fin.error = some (Exc.err e))
      ∧ outs = (itemsOf outs).map Out.item ++ (raisesOf outs).map Out.raised
      ∧ itemsOf outs = l.take (itemsOf outs).length
      ∧ (∀ r ∈ raisesOf outs, r = Exc.err e)
      ∧ (raisesOf outs ≠ [] → itemsOf outs = l)
      ∧ (run (initState l (Exc.err e) 1) (canonSched l ++ [false])).2
          = l.map Out.item ++ [Out.raised (Exc.err e), Out.raised (Exc.err e)] := by
  intro fin outs hro
  have hg := goodRun_run l (Exc.err e) ch (initState l (Exc.err e) n) []
    (goodRun_init l (Exc.err e) n)
  rw [List.nil_append, ← hro] at hg
  obtain ⟨_, h2, h3, h4, h5, h6, h7⟩ := hg
  refine ⟨?_, h3, ?_, h4, ?_, ?_⟩
  · cases hact : fin.active
    · exact Or.inr (h7 hact).1
    · exact Or.inl (h6 hact).1
  · have hpre : itemsOf outs ++ (fin.buffer ++ fin.src) = l := by
      simpa [List.append_assoc] using h2
    rw [← hpre, List.take_left]
  · intro hne
    obtain ⟨hb, hs, _⟩ := h5 hne
    rw [hb, hs] at h2
    simpa using h2
  · rw [run_append, canon_run]
    have hstep : run (⟨[], Exc.err e, 1, [], false, some (Exc.err e), true⟩ : PState α ε)
        [false]
        = (⟨[], Exc.err e, 1, [], false, some (Exc.err e), true⟩,
           [Out.raised (Exc.err e)]) := rfl
    simp only []
    rw [hstep]
    simp

/-- Witness for the amended C6 at a concrete one-item source. -/
theorem prefetch_error_redelivered_every_drain_witness :
    (run (initState [1] (Exc.err (7 : Nat)) 1) (canonSched [1] ++ [false])).2
        = ([1].map Out.item ++ [Out.raised (Exc.err 7), Out.raised (Exc.err 7)]
            : List (Out Nat Nat)) := by
  have h := prefetch_error_redelivered_every_drain (α := Nat) [1] (7 : Nat) [true] 1
    (run (initState [1] (Exc.err 7) 1) [true]).1
    (run (initState [1] (Exc.err 7) 1) [true]).2 rfl
  exact h.2.2.2.2.2

/-- C7: in every interleaving of the producer thread and consumer `next()`
calls, the consumer observes the source items in exactly production order
(what it has seen is always a prefix of the source); all items precede any
raised signal; every raised signal is the exhaustion signal and occurs only
after every produced item has been delivered; and the canonical alternating
schedule delivers all items followed by the end-of-sequence signal. -/
theorem prefetch_delivers_in_fifo_order {α ε : Type} (l : List α) (ch : List Bool)
    (n : Nat) :
    ∀ outs, outs = (run (initState l (Exc.stopIteration (ε := ε)) n) ch).2 →
      itemsOf outs = l.take (itemsOf outs).length
      ∧ outs = (itemsOf outs).map Out.item ++ (raisesOf outs).map Out.raised
      ∧ (∀ r ∈ raisesOf outs, r = Exc.stopIteration)
      ∧ (raisesOf outs ≠ [] → itemsOf outs = l)
      ∧ (run (initState l (Exc.stopIteration (ε := ε)) 1) (canonSched l)).2
          = l.map Out.item ++ [Out.raised Exc.stopIteration] := by
  intro outs houts
  have hg := goodRun_run l Exc.stopIteration ch
    (initState l (Exc.stopIteration (ε := ε)) n) []
    (goodRun_init l Exc.stopIteration n)
  rw [List.nil_append, ← houts] at hg
  obtain ⟨_, h2, h3, h4, h5, _, _⟩ := hg
  refine ⟨?_, h3, h4, ?_, ?_⟩
  · have hpre : itemsOf outs
        ++ ((run (initState l (Exc.stopIteration (ε := ε)) n) ch).1.buffer
            ++ (run (initState l (Exc.stopIteration (ε := ε)) n) ch).1.src) = l := by
      simpa [List.append_assoc] using h2
    rw [← hpre, List.take_left]
  · intro hne
    obtain ⟨hb, hs, _⟩ := h5 hne
    rw [hb, hs] at h2
    simpa using h2
  · rw [canon_run]

/-- Witness for C7 at a concrete two-item source and schedule. -/
theorem prefetch_delivers_in_fifo_order_witness :
    itemsOf (run (initState [5, 6] (Exc.stopIteration (ε := Nat)) 1)
        [true, false, true, false, true, false]).2 = [5, 6] := by
  have h := prefetch_delivers_in_fifo_order (α := Nat) (ε := Nat) [5, 6]
    [true, false, true, false, true, false] 1
    (run (initState [5, 6] (Exc.stopIteration (ε := Nat)) 1)
        [true, false, true, false, true, false]).2 rfl
  exact h.2.2.2.1 (by decide)

/-- C8: hashing a module succeeds exactly on unbound instances: with
`scope = None` the wrapped `__hash__` returns the dataclass hash, a pure
function of the dataclass field values (so identical fields always give the
same value); with any bound scope it raises `ValueError`. -/
theorem hash_ok_iff_unbound (fields : List (String × Val)) (sc : Scope) :
    wrapped_hash none fields = Except.ok (dataclass_hash fields)
    ∧ wrapped_hash (some sc) fields = Except.error (PyErr.valueError hashErrMsg) :=
  ⟨rfl, rfl⟩

/-- C9 counterexample: the claim says the configuration error lists the
offending methods.  The error raised for the class with compact methods
`encode` and `decode` is the very same fixed `RuntimeError` raised for the
class with compact methods `foo` and `bar`: the message is independent of
which methods are marked, so it lists none of them. -/
theorem compact_error_lists_no_methods_counterexample :
    verify_single_or_no_compact [("encode", true), ("decode", true)]
        = Except.error (PyErr.runtimeError compactErrMsg)
    ∧ verify_single_or_no_compact [("foo", true), ("bar", true)]
        = verify_single_or_no_compact [("encode", true), ("decode", true)] :=
  ⟨rfl, rfl⟩

/-- C9 (amended): subclass registration succeeds exactly when at most one
method is marked compact; with more than one it fails with the fixed
`RuntimeError` (whose message does not name the offending methods). -/
theorem compact_verification_ok_iff_at_most_one (methods : List (String × Bool)) :
    (verify_single_or_no_compact methods = Except.ok ()
      ↔ (methods.filter (fun m => m.2)).length ≤ 1)
    ∧ (verify_single_or_no_compact methods = Except.ok ()
      ∨ verify_single_or_no_compact methods
          = Except.error (PyErr.runtimeError compactErrMsg)) := by
  unfold verify_single_or_no_compact
  by_cases hgt : (methods.filter (fun m => m.2)).length > 1
  · rw [if_pos hgt]
    exact ⟨⟨fun hcontra => by simp at hcontra, fun hle => absurd hgt (by omega)⟩,
           Or.inr rfl⟩
  · rw [if_neg hgt]
    exact ⟨⟨fun _ => by omega, fun _ => rfl⟩, Or.inl rfl⟩

/-- C10: after `close()` the items already buffered are not discarded;
consecutive `next()` calls return them in FIFO order and the end-of-sequence
signal comes only once the buffer is empty (given no production error was
recorded, which `close` itself never records). -/
theorem prefetch_close_preserves_buffered_items {α ε : Type} (s : PState α ε)
    (h : s.error = none) :
    (consume (s.buffer.length + 1) (close s)).1
        = s.buffer.map Out.item ++ [Out.raised (Exc.stopIteration (ε := ε))]
    ∧ (consume s.buffer.length (close s)).1 = s.buffer.map Out.item :=
  consume_inactive s.buffer (close s) rfl (by simp [close, h]) rfl

/-- Witness for C10 at a concrete state with two buffered items. -/
theorem prefetch_close_preserves_buffered_items_witness :
    (consume 3 (close
        (⟨[9], Exc.stopIteration, 1, [1, 2], true, none, false⟩ : PState Nat Nat))).1
      = [Out.item 1, Out.item 2, Out.raised Exc.stopIteration] :=
  (prefetch_close_preserves_buffered_items
    (⟨[9], Exc.stopIteration, 1, [1, 2], true, none, false⟩ : PState Nat Nat) rfl).1

end Spec2Proof
